import Mathlib

/-!
Verification development for the advdb-mco2 distributed-transaction test
harness.  The Python sources are shallowly embedded: worker transactions
(case3_test.py), the serializability oracle and lost-update detector,
the dirty-read detectors (test_runner.py, isolation_level_tests.py),
the database manager (utils/db_manager.py) and the multi-node lock
acquisition become pure Lean functions over explicit environments that
stand for the external database and timing behaviour.  Amounts are
modelled as rationals, error messages as strings, and the Python
substring operator as an executable character-list search.
-/

/-- Boolean test that the first character list occurs at the start of the
second one; used to build the substring search below. -/
def isPre : List Char → List Char → Bool
  | [], _ => true
  | _ :: _, [] => false
  | a :: as, b :: bs => a == b && isPre as bs

/-- Executable substring search over character lists.  This embeds the
Python expression pat in hay on strings. -/
def containsSub (pat : List Char) : List Char → Bool
  | [] => pat.isEmpty
  | c :: rest => isPre pat (c :: rest) || containsSub pat rest

/-- Substring test on strings: the Python membership operator on str. -/
def strContains (hay pat : String) : Bool := containsSub pat.toList hay.toList

/-- Lowercasing of a string, the Python str.lower() as used on the ASCII
error messages of the repository. -/
def lowerStr (s : String) : String := String.mk (s.toList.map Char.toLower)

/-- Uppercasing of a string, the Python str.upper(). -/
def upperStr (s : String) : String := String.mk (s.toList.map Char.toUpper)

/-- Whitespace removal at both ends of a string, the Python str.strip(). -/
def strTrim (s : String) : String :=
  String.mk (((s.toList.dropWhile Char.isWhitespace).reverse.dropWhile Char.isWhitespace).reverse)

/-- Absolute value on the rational amounts, the Python abs(). -/
def ratAbs (x : Rat) : Rat := if x < 0 then -x else x

/-! Worker model: ConcurrentWriteTest.write_transaction and
delete_transaction of case3_test.py.  Each worker is a pure function of
an environment that fixes the outcome of every external call (lock
manager, database connector, SQL statements), mirroring the try/except/finally
control flow of the source. -/

/-- Status stored in the results entry of a worker: the source writes
exactly the strings SUCCESS or FAILED. -/
inductive TxStatus where
  | SUCCESS
  | FAILED
deriving DecidableEq

/-- One entry of the results dict of ConcurrentWriteTest.  The source
keys it by transaction id; rtype is the key named type in the source
(WRITE or DELETE), node stores the numeric part of the node label, and
the amount fields are present only on the paths that set them. -/
structure TxnRecord where
  rtype : String
  node : Nat
  status : TxStatus
  beforeAmount : Option Rat
  afterAmount : Option Rat
  errorMsg : Option String
  errorCategory : Option String
deriving DecidableEq

/-- Environment of one worker run: the result of each external call in
the order the source makes them.  A some value is the text of the
exception that call raises; none means the call succeeds.  record is
the row returned by the pre-mutation SELECT (none: row absent); the
post-mutation SELECT, made inside the same open transaction, returns
the value the UPDATE just wrote. -/
structure WriteEnv where
  acquireOk : Bool
  connectErr : Option String
  checkOk : Bool
  selectErr : Option String
  record : Option Rat
  updateErr : Option String
  commitErr : Option String
deriving DecidableEq

/-- Resource identifier built by the source, the Python f-string
trans_{trans_id}. -/
def resId (transId : Nat) : String := "trans_" ++ Nat.repr transId

/-- Message of the exception raised when step-1 lock acquisition fails
(case3_test.py line 95). -/
def acquireFailMsg (resourceId : String) : String :=
  "Failed to acquire lock on " ++ resourceId

/-- Message of the exception raised when the lock re-verification fails
(case3_test.py line 117). -/
def lostLockMsg (resourceId : String) (node : Nat) : String :=
  "Lost lock on " ++ resourceId ++ " at Node " ++ Nat.repr node

/-- Message of the exception raised when the row is absent
(case3_test.py line 131). -/
def notFoundMsg (transId node : Nat) : String :=
  "Record with trans_id=" ++ Nat.repr transId ++ " not found on Node " ++ Nat.repr node

/-- Error classification performed in the except block of
write_transaction (case3_test.py lines 174-188) and the identical block
of delete_transaction: the lowercased error text is searched for marker
substrings. -/
def categorize (e : String) : String :=
  if strContains (lowerStr e) "lock wait timeout" || strContains (lowerStr e) "deadlock" then
    "LOCK_CONTENTION"
  else if strContains (lowerStr e) "failed to acquire lock" then
    "DISTRIBUTED_LOCK_TIMEOUT"
  else
    "OTHER"

/-- Query used for the pre-mutation read (case3_test.py lines 122-126):
an explicit FOR UPDATE row lock exactly under SERIALIZABLE. -/
def selectBeforeQuery (isolationLevel : String) : String :=
  if isolationLevel == "SERIALIZABLE" then
    "SELECT trans_id, amount FROM trans WHERE trans_id = %s FOR UPDATE"
  else
    "SELECT trans_id, amount FROM trans WHERE trans_id = %s"

/-- Dwell in seconds for which the transaction is held open after the
mutation (case3_test.py line 138): 1.5 under SERIALIZABLE, 3 otherwise. -/
def sleep_time (isolationLevel : String) : Rat :=
  if isolationLevel == "SERIALIZABLE" then 3/2 else 3

/-- Observable outcome of one worker: the stored results entry together
with the side effects the verified properties talk about.  releaseCount
counts release_lock calls made by the finally block, rollback records
whether conn.rollback() ran, updateRan whether the UPDATE or DELETE
statement was issued, beforeQuery the text of the pre-mutation SELECT
when it was issued, and dwell the post-mutation sleep when reached. -/
structure WriteOutcome where
  entry : TxnRecord
  releaseCount : Nat
  rollback : Bool
  updateRan : Bool
  beforeQuery : Option String
  dwell : Option Rat
  resource : String
deriving DecidableEq

/-- Failure record stored by the except block of write_transaction and
delete_transaction: status FAILED, the error text, and its category. -/
def failRecord (rtype : String) (node : Nat) (e : String) : TxnRecord :=
  { rtype := rtype, node := node, status := .FAILED, beforeAmount := none,
    afterAmount := none, errorMsg := some e, errorCategory := some (categorize e) }

/-- Shallow embedding of ConcurrentWriteTest.write_transaction
(case3_test.py lines 78-212).  Control flow follows the source: a failed
acquire raises before any connection exists (so no rollback and, since
lock_acquired is still False, no release); once acquisition succeeded
the finally block releases exactly once on every path; once the
connection exists every caught exception triggers conn.rollback(); the
lock re-verification happens before START TRANSACTION and the UPDATE;
the pre-mutation SELECT uses selectBeforeQuery and the post-mutation
dwell uses sleep_time. -/
def write_transaction (node transId : Nat) (newAmount : Rat)
    (isolationLevel : String) (env : WriteEnv) : WriteOutcome :=
  if env.acquireOk = false then
    { entry := failRecord "WRITE" node (acquireFailMsg (resId transId)),
      releaseCount := 0, rollback := false, updateRan := false,
      beforeQuery := none, dwell := none, resource := resId transId }
  else
    match env.connectErr with
    | some e =>
        { entry := failRecord "WRITE" node e, releaseCount := 1, rollback := false,
          updateRan := false, beforeQuery := none, dwell := none,
          resource := resId transId }
    | none =>
      if env.checkOk = false then
        { entry := failRecord "WRITE" node (lostLockMsg (resId transId) node),
          releaseCount := 1, rollback := true, updateRan := false,
          beforeQuery := none, dwell := none, resource := resId transId }
      else
        match env.selectErr with
        | some e =>
            { entry := failRecord "WRITE" node e, releaseCount := 1, rollback := true,
              updateRan := false, beforeQuery := some (selectBeforeQuery isolationLevel),
              dwell := none, resource := resId transId }
        | none =>
          match env.record with
          | none =>
              { entry := failRecord "WRITE" node (notFoundMsg transId node),
                releaseCount := 1, rollback := true, updateRan := false,
                beforeQuery := some (selectBeforeQuery isolationLevel),
                dwell := none, resource := resId transId }
          | some before =>
            match env.updateErr with
            | some e =>
                { entry := failRecord "WRITE" node e, releaseCount := 1, rollback := true,
                  updateRan := true, beforeQuery := some (selectBeforeQuery isolationLevel),
                  dwell := none, resource := resId transId }
            | none =>
              match env.commitErr with
              | some e =>
                  { entry := failRecord "WRITE" node e, releaseCount := 1, rollback := true,
                    updateRan := true,
                    beforeQuery := some (selectBeforeQuery isolationLevel),
                    dwell := some (sleep_time isolationLevel),
                    resource := resId transId }
              | none =>
                  { entry := { rtype := "WRITE", node := node, status := .SUCCESS,
                               beforeAmount := some before,
                               afterAmount := some newAmount,
                               errorMsg := none, errorCategory := none },
                    releaseCount := 1, rollback := false, updateRan := true,
                    beforeQuery := some (selectBeforeQuery isolationLevel),
                    dwell := some (sleep_time isolationLevel),
                    resource := resId transId }

/-- Shallow embedding of ConcurrentWriteTest.delete_transaction
(case3_test.py lines 214-342); identical structure to write_transaction
except that the mutation is a DELETE, the success record stores no
after amount, and there is no post-mutation read back (updateErr here
stands for the DELETE statement raising). -/
def delete_transaction (node transId : Nat) (isolationLevel : String)
    (env : WriteEnv) : WriteOutcome :=
  if env.acquireOk = false then
    { entry := failRecord "DELETE" node (acquireFailMsg (resId transId)),
      releaseCount := 0, rollback := false, updateRan := false,
      beforeQuery := none, dwell := none, resource := resId transId }
  else
    match env.connectErr with
    | some e =>
        { entry := failRecord "DELETE" node e, releaseCount := 1, rollback := false,
          updateRan := false, beforeQuery := none, dwell := none,
          resource := resId transId }
    | none =>
      if env.checkOk = false then
        { entry := failRecord "DELETE" node (lostLockMsg (resId transId) node),
          releaseCount := 1, rollback := true, updateRan := false,
          beforeQuery := none, dwell := none, resource := resId transId }
      else
        match env.selectErr with
        | some e =>
            { entry := failRecord "DELETE" node e, releaseCount := 1, rollback := true,
              updateRan := false, beforeQuery := some (selectBeforeQuery isolationLevel),
              dwell := none, resource := resId transId }
        | none =>
          match env.record with
          | none =>
              { entry := failRecord "DELETE" node (notFoundMsg transId node),
                releaseCount := 1, rollback := true, updateRan := false,
                beforeQuery := some (selectBeforeQuery isolationLevel),
                dwell := none, resource := resId transId }
          | some before =>
            match env.updateErr with
            | some e =>
                { entry := failRecord "DELETE" node e, releaseCount := 1, rollback := true,
                  updateRan := true, beforeQuery := some (selectBeforeQuery isolationLevel),
                  dwell := none, resource := resId transId }
            | none =>
              match env.commitErr with
              | some e =>
                  { entry := failRecord "DELETE" node e, releaseCount := 1, rollback := true,
                    updateRan := true,
                    beforeQuery := some (selectBeforeQuery isolationLevel),
                    dwell := some (sleep_time isolationLevel),
                    resource := resId transId }
              | none =>
                  { entry := { rtype := "DELETE", node := node, status := .SUCCESS,
                               beforeAmount := some before, afterAmount := none,
                               errorMsg := none, errorCategory := none },
                    releaseCount := 1, rollback := false, updateRan := true,
                    beforeQuery := some (selectBeforeQuery isolationLevel),
                    dwell := some (sleep_time isolationLevel),
                    resource := resId transId }

/-! Driver model: ConcurrentWriteTest.run_test in the update_only
scenario (case3_test.py lines 344-454) and restore_original_value
(lines 456-486). -/

/-- Worker launch table of run_test for test_scenario update_only
(case3_test.py lines 379-399): transaction id, target node and new
amount of each of the ten writers; 11000.00 plus i times 1111.11 with i
running 1-4 on node 1, 5-8 on node 2 and 9-10 on node 3. -/
def workerSpecsUpdateOnly : List (String × Nat × Rat) :=
  [("T1_WRITER_Node1", 1, 11000 + 1 * (111111/100)),
   ("T2_WRITER_Node1", 1, 11000 + 2 * (111111/100)),
   ("T3_WRITER_Node1", 1, 11000 + 3 * (111111/100)),
   ("T4_WRITER_Node1", 1, 11000 + 4 * (111111/100)),
   ("T5_WRITER_Node2", 2, 11000 + 5 * (111111/100)),
   ("T6_WRITER_Node2", 2, 11000 + 6 * (111111/100)),
   ("T7_WRITER_Node2", 2, 11000 + 7 * (111111/100)),
   ("T8_WRITER_Node2", 2, 11000 + 8 * (111111/100)),
   ("T9_WRITER_Node3", 3, 11000 + 9 * (111111/100)),
   ("T10_WRITER_Node3", 3, 11000 + 10 * (111111/100))]

/-- Shallow embedding of run_test with test_scenario update_only: the
results dict is reset and each launched worker stores exactly one entry
under its own transaction id (the source joins every thread before
reading results; the concurrent and sequential modes differ only in
timing, which the per-worker environments absorb). -/
def run_test_update_only (transId : Nat) (iso : String) (envs : String → WriteEnv) :
    List (String × WriteOutcome) :=
  workerSpecsUpdateOnly.map
    (fun s => (s.1, write_transaction s.2.1 transId s.2.2 iso (envs s.1)))

/-- Shallow embedding of restore_original_value (case3_test.py lines
456-486) acting on the row state of one node.  The whole body runs
inside a try/except: when no exception occurs, a deleted row is
re-inserted with amount 1000.00 and an existing row is updated to
1000.00; when any exception occurs (restoreErr true) it is caught, only
a warning is printed, and the row keeps its previous state. -/
def restore_original_value (restoreErr : Bool) (row : Option Rat) : Option Rat :=
  if restoreErr then row
  else
    match row with
    | none => some 1000
    | some _ => some 1000

/-- Nodes on which run_test restores the baseline after the run
(case3_test.py lines 450-452). -/
def restoredNodes : List Nat := [1, 2, 3]

/-! Oracle model: ConcurrentWriteTest.validate_serializability
(case3_test.py lines 605-670) and the lost-update detection of
display_results (lines 523-553). -/

/-- One entry of a run result as consumed by the oracle: operation type
(WRITE or DELETE), status string, observed amounts and timestamps.  In
the source a DELETE entry carries no after_amount key; the oracle and
the lost-update scan read afterAmount only on WRITE entries, matching
the access pattern of the source. -/
structure RunRec where
  rtype : String
  status : String
  beforeAmount : Rat
  afterAmount : Rat
  startTime : Rat
  endTime : Rat
deriving DecidableEq

/-- Stable insertion into a list sorted by end time; together with
sortByEnd this embeds the Python sorted(key=end_time), which is a
stable sort. -/
def insertEnd (r : RunRec) : List RunRec → List RunRec
  | [] => [r]
  | x :: t => if r.endTime ≤ x.endTime then r :: x :: t else x :: insertEnd r t

/-- Stable sort by end time, the sorted(..., key=end_time) calls of
case3_test.py. -/
def sortByEnd : List RunRec → List RunRec
  | [] => []
  | x :: t => insertEnd x (sortByEnd t)

/-- Successful entries of a run, the list comprehensions filtering on
status == SUCCESS. -/
def successesOf (l : List RunRec) : List RunRec :=
  l.filter (fun r => r.status == "SUCCESS")

/-- Shallow embedding of validate_serializability (case3_test.py lines
605-670), restricted to its returned verdict (the second component of
the returned pair is wall-clock telemetry).  Only under SERIALIZABLE,
with both runs owning at least one successful entry, are the final
(latest end time) successful entries compared: DELETE against DELETE
accepts, WRITE against WRITE compares amounts against the 0.01
tolerance, and every other combination falls through to the final
return True of the source; every non-SERIALIZABLE level returns True
unconditionally. -/
def validate_serializability (conc seq : List RunRec) (iso : String) : Bool :=
  if iso == "SERIALIZABLE" then
    match (sortByEnd (successesOf conc)).getLast?, (sortByEnd (successesOf seq)).getLast? with
    | some cf, some sf =>
        if cf.rtype == "DELETE" && sf.rtype == "DELETE" then true
        else if cf.rtype == "WRITE" && sf.rtype == "WRITE" then
          decide (ratAbs (cf.afterAmount - sf.afterAmount) < 1/100)
        else true
    | _, _ => true
  else true

/-- Adjacent pairs of a list, in order: the indices i, i+1 loop of the
lost-update detection. -/
def adjacentPairs : List RunRec → List (RunRec × RunRec)
  | [] => []
  | [_] => []
  | a :: b :: t => (a, b) :: adjacentPairs (b :: t)

/-- Shallow embedding of the lost-update detection of display_results
(case3_test.py lines 541-553): the successful entries are sorted by end
time and an adjacent pair is flagged when both entries are WRITEs and
the before amount of the later differs from the after amount of the
earlier by more than 0.01. -/
def lostUpdateFlags (results : List RunRec) : List (RunRec × RunRec) :=
  (adjacentPairs (sortByEnd (successesOf results))).filter
    (fun p => p.1.rtype == "WRITE" && p.2.rtype == "WRITE" &&
      decide ((1 : Rat)/100 < ratAbs (p.2.beforeAmount - p.1.afterAmount)))

/-! Detector model: the dirty-read checks of
ConcurrencyTestSuite._test_read_write_concurrency (test_runner.py lines
392-411) and of IsolationLevelTests._test_dirty_reads_read_uncommitted
(isolation_level_tests.py lines 226-234, 262-266). -/

/-- Dirty-read flag of _test_read_write_concurrency: a Dirty Read
anomaly is logged, and the detected flag set, for every reader value
equal to the in-flight value whenever the isolation level is not READ
UNCOMMITTED; matches under READ UNCOMMITTED take the pass branch. -/
def dirty_read_detected (readValues : List Rat) (newVal : Rat) (iso : String) : Bool :=
  readValues.any (fun v => v == newVal && !(iso == "READ UNCOMMITTED"))

/-- Dirty-read flag of the dedicated READ UNCOMMITTED test: the single
reader value is compared with the uncommitted value and a Dirty Read
Detected anomaly is logged via log_anomaly exactly when they are equal
(isolation_level_tests.py lines 226-234). -/
def ru_dirty_read_detected (readValue : Option Rat) (newVal : Rat) : Bool :=
  match readValue with
  | some v => v == newVal
  | none => false

/-- Final verdict of the dedicated READ UNCOMMITTED test
(isolation_level_tests.py line 265): observing the dirty read is the
expected outcome and marks the test PASS. -/
def ru_test_result (detected : Bool) : String :=
  if detected then "PASS" else "UNEXPECTED"

/-! Lock manager model.  The class DistributedLockManager
(python/utils/lock_manager.py) is imported by the sources but the file
itself is not part of the repository snapshot, so the multi-node
acquisition is modelled from the specification. -/

/-- Lock table: association list from compound key (resource, node) to
holder identity; the first entry for a key is the live lock. -/
abbrev LockState := List ((String × Nat) × String)

/-- Holder of the lock on (resource, node), none when free. -/
def lockOwner : LockState → String → Nat → Option String
  | [], _, _ => none
  | (k, o) :: t, res, n => if k = (res, n) then some o else lockOwner t res n

/-- Modelled from the spec: release(resource, node) removes the entry
only if held by self and is a no-op otherwise (spec section 4.1); the
DistributedLockManager source is missing from the snapshot. -/
def releaseNode (st : LockState) (self res : String) (n : Nat) : LockState :=
  st.filter (fun e => !(e.1 == (res, n) && e.2 == self))

/-- Release of every node acquired so far by a failed multi-node
request, the cleanup loop of a failing acquireAll. -/
def releaseList (self res : String) : List Nat → LockState → LockState
  | [], st => st
  | n :: t, st => releaseList self res t (releaseNode st self res n)

/-- Ascending insertion used to impose the fixed global node order of
the spec on a multi-node request. -/
def insertAsc (n : Nat) : List Nat → List Nat
  | [] => [n]
  | x :: t => if n ≤ x then n :: x :: t else x :: insertAsc n t

/-- Ascending sort of the requested node set (spec section 4.1: locks
are always attempted in one fixed global node order). -/
def sortNodes : List Nat → List Nat
  | [] => []
  | x :: t => insertAsc x (sortNodes t)

/-- Acquisition loop of the multi-node request: nodes are attempted in
the given order; avail says whether the lock on a node became free
within the timeout; on the first failure every lock taken in this call
is released and false returned. -/
def acquireAllGo (avail : Nat → Bool) (self res : String) :
    List Nat → List Nat → LockState → Bool × LockState
  | [], _, st => (true, st)
  | n :: rest, acquired, st =>
    if avail n && (lockOwner st res n).isNone then
      acquireAllGo avail self res rest (n :: acquired) (((res, n), self) :: st)
    else
      (false, releaseList self res acquired st)

/-- Modelled from the spec: acquire_multi_node_lock / acquireAll of the
missing DistributedLockManager (spec section 4.1): the requested nodes
are brought into the fixed ascending order, acquired one by one, and on
any failure every lock already taken in this call is released before
the call returns false. -/
def acquireAll (avail : Nat → Bool) (self res : String) (nodes : List Nat)
    (st : LockState) : Bool × LockState :=
  acquireAllGo avail self res (sortNodes nodes) [] st

/-! Store adapter model: DatabaseManager.execute_query and the helpers
built on it (utils/db_manager.py lines 108-233). -/

/-- Environment of one execute_query call: the exception raised
anywhere inside the with/try body (none: the call succeeds), the row
count the cursor reports, the elapsed time and the timestamp string. -/
structure QueryEnv where
  execErr : Option String
  rowCount : Int
  elapsed : Rat
  timestampStr : String
deriving DecidableEq

/-- Return dict of execute_query: both branches carry success,
duration, timestamp, node_id and query; the success branch adds the
row count, the failure branch the error text.  committed records
whether conn.commit() was issued by the auto-commit branch. -/
structure QueryResult where
  success : Bool
  error : Option String
  row_count : Option Int
  duration : Rat
  timestamp : String
  node_id : Nat
  query : String
  committed : Bool
deriving DecidableEq

/-- Query text stored in the returned dict: truncated to 100 characters
plus an ellipsis when longer (db_manager.py lines 143, 154). -/
def truncQuery (q : String) : String :=
  if 100 < q.toList.length then String.mk (q.toList.take 100) ++ "..." else q

/-- Test for the auto-commit condition of execute_query (db_manager.py
lines 130-131): the stripped, uppercased query starts with one of the
write keywords. -/
def isWriteStmt (q : String) : Bool :=
  isPre "INSERT".toList (upperStr (strTrim q)).toList ||
  isPre "UPDATE".toList (upperStr (strTrim q)).toList ||
  isPre "DELETE".toList (upperStr (strTrim q)).toList ||
  isPre "CREATE".toList (upperStr (strTrim q)).toList ||
  isPre "DROP".toList (upperStr (strTrim q)).toList ||
  isPre "ALTER".toList (upperStr (strTrim q)).toList

/-- Shallow embedding of DatabaseManager.execute_query (db_manager.py
lines 108-155): every exception is caught and turned into a failure
dict; on success an automatic commit is issued exactly when auto_commit
holds and the statement is a write statement. -/
def execute_query (node : Nat) (query : String) (auto_commit : Bool)
    (env : QueryEnv) : QueryResult :=
  match env.execErr with
  | some e =>
      { success := false, error := some e, row_count := none,
        duration := env.elapsed, timestamp := env.timestampStr, node_id := node,
        query := truncQuery query, committed := false }
  | none =>
      { success := true, error := none, row_count := some env.rowCount,
        duration := env.elapsed, timestamp := env.timestampStr, node_id := node,
        query := truncQuery query,
        committed := auto_commit && isWriteStmt query }

/-- DatabaseManager.start_transaction (db_manager.py lines 157-162):
execute_query on START TRANSACTION with auto_commit False. -/
def start_transaction (node : Nat) (env : QueryEnv) : QueryResult :=
  execute_query node "START TRANSACTION" false env

/-- DatabaseManager.commit_transaction (db_manager.py lines 164-169). -/
def commit_transaction (node : Nat) (env : QueryEnv) : QueryResult :=
  execute_query node "COMMIT" false env

/-- DatabaseManager.rollback_transaction (db_manager.py lines 171-176). -/
def rollback_transaction (node : Nat) (env : QueryEnv) : QueryResult :=
  execute_query node "ROLLBACK" false env

/-- DatabaseManager.get_transaction_record (db_manager.py lines
178-181); auto_commit keeps its default True, harmless on a SELECT. -/
def get_transaction_record (node : Nat) (env : QueryEnv) : QueryResult :=
  execute_query node "SELECT * FROM trans WHERE trans_id = %s" true env

/-- DatabaseManager.update_transaction_record (db_manager.py lines
228-233), called with auto_commit False. -/
def update_transaction_record (node : Nat) (env : QueryEnv) : QueryResult :=
  execute_query node "UPDATE trans SET amount = %s WHERE trans_id = %s" false env

theorem isPre_iff (pat : List Char) : ∀ hay : List Char,
    isPre pat hay = true ↔ ∃ t, hay = pat ++ t := by
  induction pat with
  | nil =>
      intro hay
      simp [isPre]
  | cons a as ih =>
      intro hay
      cases hay with
      | nil => simp [isPre]
      | cons b bs =>
          simp only [isPre, Bool.and_eq_true, beq_iff_eq, ih bs, List.cons_append,
            List.cons.injEq]
          constructor
          · rintro ⟨hab, t, ht⟩
            exact ⟨t, hab.symm, ht⟩
          · rintro ⟨t, hab, ht⟩
            exact ⟨hab.symm, t, ht⟩

theorem containsSub_iff (pat : List Char) : ∀ hay : List Char,
    containsSub pat hay = true ↔ ∃ s t, hay = s ++ pat ++ t := by
  intro hay
  induction hay with
  | nil =>
      simp only [containsSub, List.isEmpty_iff]
      constructor
      · rintro rfl
        exact ⟨[], [], rfl⟩
      · rintro ⟨s, t, ht⟩
        rcases List.append_eq_nil.mp (List.append_eq_nil.mp ht.symm).1 with ⟨_, h2⟩
        exact h2
  | cons c rest ih =>
      simp only [containsSub, Bool.or_eq_true, isPre_iff, ih]
      constructor
      · rintro (⟨t, ht⟩ | ⟨s, t, ht⟩)
        · exact ⟨[], t, by simp [ht]⟩
        · exact ⟨c :: s, t, by simp [ht]⟩
      · rintro ⟨s, t, ht⟩
        cases s with
        | nil =>
            left
            exact ⟨t, by simpa using ht⟩
        | cons x xs =>
            right
            rw [List.cons_append, List.cons_append] at ht
            obtain ⟨rfl, hrest⟩ := List.cons.injEq .. ▸ ht
            exact ⟨xs, t, by simpa using hrest⟩

theorem containsSub_append_right {pat a : List Char} (x : List Char)
    (h : containsSub pat a = true) : containsSub pat (a ++ x) = true := by
  rw [containsSub_iff] at h ⊢
  obtain ⟨s, t, rfl⟩ := h
  exact ⟨s, t ++ x, by simp⟩

theorem isPre_digits_block (pat : List Char) (hp : ∀ c ∈ pat, c.isDigit = false) :
    ∀ a ds b : List Char, (∀ c ∈ ds, c.isDigit = true) → ds ≠ [] →
    isPre pat (a ++ (ds ++ b)) = true → ∃ t, a = pat ++ t := by
  induction pat with
  | nil =>
      intro a _ _ _ _ _
      exact ⟨a, rfl⟩
  | cons p ps ih =>
      intro a ds b hd hds h
      cases a with
      | nil =>
          cases ds with
          | nil => exact absurd rfl hds
          | cons d ds2 =>
              exfalso
              simp only [List.nil_append, List.cons_append, isPre, Bool.and_eq_true,
                beq_iff_eq] at h
              have hpd : p.isDigit = false := hp p (by simp)
              have hdd : d.isDigit = true := hd d (by simp)
              rw [h.1] at hpd
              rw [hdd] at hpd
              exact Bool.noConfusion hpd
      | cons x xs =>
          simp only [List.cons_append, isPre, Bool.and_eq_true, beq_iff_eq] at h
          obtain ⟨t, ht⟩ := ih (fun c hc => hp c (by simp [hc])) xs ds b hd hds h.2
          exact ⟨t, by simp [h.1, ht]⟩

theorem containsSub_digits_head (pat : List Char) (hpat : pat ≠ [])
    (hp : ∀ c ∈ pat, c.isDigit = false) :
    ∀ ds b : List Char, (∀ c ∈ ds, c.isDigit = true) →
    containsSub pat (ds ++ b) = containsSub pat b := by
  intro ds
  induction ds with
  | nil => intro b _; simp
  | cons d ds2 ih =>
      intro b hd
      have hstep : isPre pat (d :: (ds2 ++ b)) = false := by
        cases pat with
        | nil => exact absurd rfl hpat
        | cons p ps =>
            simp only [isPre, Bool.and_eq_false_iff]
            left
            have hpd : p.isDigit = false := hp p (by simp)
            have hdd : d.isDigit = true := hd d (by simp)
            rw [beq_eq_false_iff_ne]
            intro he
            rw [he, hdd] at hpd
            exact Bool.noConfusion hpd
      have hgoal : containsSub pat ((d :: ds2) ++ b)
          = (isPre pat (d :: (ds2 ++ b)) || containsSub pat (ds2 ++ b)) := rfl
      rw [hgoal, hstep, Bool.false_or]
      exact ih b (fun c hc => hd c (by simp [hc]))

theorem containsSub_split (pat : List Char) (hpat : pat ≠ [])
    (hp : ∀ c ∈ pat, c.isDigit = false) :
    ∀ a ds b : List Char, (∀ c ∈ ds, c.isDigit = true) → ds ≠ [] →
    containsSub pat (a ++ ds ++ b) = true →
    containsSub pat a = true ∨ containsSub pat b = true := by
  intro a
  induction a with
  | nil =>
      intro ds b hd hds h
      right
      have h2 : containsSub pat (ds ++ b) = true := by simpa using h
      rw [containsSub_digits_head pat hpat hp ds b hd] at h2
      exact h2
  | cons x xs ih =>
      intro ds b hd hds h
      simp only [List.cons_append, containsSub, Bool.or_eq_true] at h
      rcases h with h | h
      · left
        have h2 : isPre pat ((x :: xs) ++ (ds ++ b)) = true := by simpa using h
        obtain ⟨t, ht⟩ := isPre_digits_block pat hp (x :: xs) ds b hd hds h2
        have h3 : isPre pat (x :: xs) = true := (isPre_iff pat (x :: xs)).mpr ⟨t, ht⟩
        simp [containsSub, h3]
      · rcases ih ds b hd hds h with h2 | h2
        · left
          simp [containsSub, h2]
        · right
          exact h2

theorem toList_append (s t : String) : (s ++ t).toList = s.toList ++ t.toList := rfl

theorem data_append (s t : String) : (s ++ t).data = s.data ++ t.data := rfl

theorem lowerStr_toList (s : String) : (lowerStr s).toList = s.toList.map Char.toLower := rfl

theorem lowerStr_data (s : String) : (lowerStr s).data = s.data.map Char.toLower := rfl

theorem lowerStr_append (s t : String) : lowerStr (s ++ t) = lowerStr s ++ lowerStr t := by
  show String.mk ((s.data ++ t.data).map Char.toLower)
      = String.mk (s.data.map Char.toLower ++ t.data.map Char.toLower)
  rw [List.map_append]

theorem containsSub_of_isPre {p hay : List Char} (h : isPre p hay = true) :
    containsSub p hay = true := by
  cases hay with
  | nil =>
      cases p with
      | nil => rfl
      | cons a as => exact Bool.noConfusion h
  | cons c rest =>
      show (isPre p (c :: rest) || containsSub p rest) = true
      rw [h, Bool.true_or]

theorem containsSub_fixed_digits {p A D : List Char} (hp0 : p ≠ [])
    (hp : ∀ c ∈ p, c.isDigit = false) (hD : ∀ c ∈ D, c.isDigit = true)
    (hD0 : D ≠ []) (hA : containsSub p A = false) :
    containsSub p (A ++ D) = false := by
  rw [← Bool.not_eq_true]
  intro h
  have h4 : containsSub p (A ++ D ++ ([] : List Char)) = true := by
    rwa [List.append_nil]
  rcases containsSub_split p hp0 hp A D [] hD hD0 h4 with h5 | h5
  · rw [hA] at h5
    exact Bool.noConfusion h5
  · have h6 : containsSub p ([] : List Char) = p.isEmpty := rfl
    rw [h6, List.isEmpty_iff] at h5
    exact hp0 h5

theorem containsSub_fixed_two_digits {p A F B G : List Char} (hp0 : p ≠ [])
    (hp : ∀ c ∈ p, c.isDigit = false)
    (hF : ∀ c ∈ F, c.isDigit = true) (hF0 : F ≠ [])
    (hG : ∀ c ∈ G, c.isDigit = true) (hG0 : G ≠ [])
    (hA : containsSub p A = false) (hB : containsSub p B = false) :
    containsSub p (A ++ F ++ (B ++ G)) = false := by
  rw [← Bool.not_eq_true]
  intro h
  rcases containsSub_split p hp0 hp A F (B ++ G) hF hF0 h with h5 | h5
  · rw [hA] at h5
    exact Bool.noConfusion h5
  · rw [containsSub_fixed_digits hp0 hp hG hG0 hB] at h5
    exact Bool.noConfusion h5

theorem strContains_acquireFail_false (t : Nat) (p : String)
    (hp0 : p.toList ≠ []) (hp : ∀ c ∈ p.toList, c.isDigit = false)
    (hT : ∀ c ∈ (lowerStr (Nat.repr t)).toList, c.isDigit = true)
    (hT0 : (lowerStr (Nat.repr t)).toList ≠ [])
    (hA : containsSub p.toList
      ("Failed to acquire lock on ".toList.map Char.toLower
        ++ "trans_".toList.map Char.toLower) = false) :
    strContains (lowerStr (acquireFailMsg (resId t))) p = false := by
  have key := containsSub_fixed_digits (p := p.toList)
      (A := "Failed to acquire lock on ".toList.map Char.toLower
        ++ "trans_".toList.map Char.toLower)
      (D := (lowerStr (Nat.repr t)).toList) hp0 hp hT hT0 hA
  unfold strContains
  have hshape : (lowerStr (acquireFailMsg (resId t))).toList
      = "Failed to acquire lock on ".toList.map Char.toLower
        ++ ("trans_".toList.map Char.toLower ++ (lowerStr (Nat.repr t)).toList) := by
    simp [lowerStr_data, acquireFailMsg, resId, data_append, List.map_append]
  rw [hshape]
  simpa [List.append_assoc] using key

theorem strContains_acquireFail_true (t : Nat) :
    strContains (lowerStr (acquireFailMsg (resId t))) "failed to acquire lock" = true := by
  unfold strContains
  have hshape : (lowerStr (acquireFailMsg (resId t))).toList
      = "failed to acquire lock".toList
        ++ (" on ".toList.map Char.toLower
          ++ ("trans_".toList.map Char.toLower ++ (lowerStr (Nat.repr t)).toList)) := by
    simp [lowerStr_data, acquireFailMsg, resId, data_append, List.map_append]
  rw [hshape]
  apply containsSub_of_isPre
  rw [isPre_iff]
  exact ⟨_, rfl⟩

theorem strContains_lostLock_false (t n : Nat) (p : String)
    (hp0 : p.toList ≠ []) (hp : ∀ c ∈ p.toList, c.isDigit = false)
    (hT : ∀ c ∈ (lowerStr (Nat.repr t)).toList, c.isDigit = true)
    (hT0 : (lowerStr (Nat.repr t)).toList ≠ [])
    (hN : ∀ c ∈ (lowerStr (Nat.repr n)).toList, c.isDigit = true)
    (hN0 : (lowerStr (Nat.repr n)).toList ≠ [])
    (hA : containsSub p.toList
      ("Lost lock on ".toList.map Char.toLower
        ++ "trans_".toList.map Char.toLower) = false)
    (hB : containsSub p.toList (" at Node ".toList.map Char.toLower) = false) :
    strContains (lowerStr (lostLockMsg (resId t) n)) p = false := by
  have key := containsSub_fixed_two_digits (p := p.toList)
      (A := "Lost lock on ".toList.map Char.toLower
        ++ "trans_".toList.map Char.toLower)
      (F := (lowerStr (Nat.repr t)).toList)
      (B := " at Node ".toList.map Char.toLower)
      (G := (lowerStr (Nat.repr n)).toList) hp0 hp hT hT0 hN hN0 hA hB
  unfold strContains
  have hshape : (lowerStr (lostLockMsg (resId t) n)).toList
      = "Lost lock on ".toList.map Char.toLower
        ++ ("trans_".toList.map Char.toLower
          ++ ((lowerStr (Nat.repr t)).toList
            ++ (" at Node ".toList.map Char.toLower ++ (lowerStr (Nat.repr n)).toList))) := by
    simp [lowerStr_data, lostLockMsg, resId, data_append, List.map_append]
  rw [hshape]
  simpa [List.append_assoc] using key

theorem strContains_notFound_false (t n : Nat) (p : String)
    (hp0 : p.toList ≠ []) (hp : ∀ c ∈ p.toList, c.isDigit = false)
    (hT : ∀ c ∈ (lowerStr (Nat.repr t)).toList, c.isDigit = true)
    (hT0 : (lowerStr (Nat.repr t)).toList ≠ [])
    (hN : ∀ c ∈ (lowerStr (Nat.repr n)).toList, c.isDigit = true)
    (hN0 : (lowerStr (Nat.repr n)).toList ≠ [])
    (hA : containsSub p.toList ("Record with trans_id=".toList.map Char.toLower) = false)
    (hB : containsSub p.toList (" not found on Node ".toList.map Char.toLower) = false) :
    strContains (lowerStr (notFoundMsg t n)) p = false := by
  have key := containsSub_fixed_two_digits (p := p.toList)
      (A := "Record with trans_id=".toList.map Char.toLower)
      (F := (lowerStr (Nat.repr t)).toList)
      (B := " not found on Node ".toList.map Char.toLower)
      (G := (lowerStr (Nat.repr n)).toList) hp0 hp hT hT0 hN hN0 hA hB
  unfold strContains
  have hshape : (lowerStr (notFoundMsg t n)).toList
      = "Record with trans_id=".toList.map Char.toLower
        ++ ((lowerStr (Nat.repr t)).toList
          ++ (" not found on Node ".toList.map Char.toLower ++ (lowerStr (Nat.repr n)).toList)) := by
    simp [lowerStr_data, notFoundMsg, data_append, List.map_append]
  rw [hshape]
  simpa [List.append_assoc] using key

theorem categorize_acquireFail (t : Nat)
    (hT : ∀ c ∈ (lowerStr (Nat.repr t)).toList, c.isDigit = true)
    (hT0 : (lowerStr (Nat.repr t)).toList ≠ []) :
    categorize (acquireFailMsg (resId t)) = "DISTRIBUTED_LOCK_TIMEOUT" := by
  have h1 := strContains_acquireFail_false t "lock wait timeout"
    (by decide) (by decide) hT hT0 (by decide)
  have h2 := strContains_acquireFail_false t "deadlock"
    (by decide) (by decide) hT hT0 (by decide)
  have h3 := strContains_acquireFail_true t
  simp [categorize, h1, h2, h3]

theorem categorize_lostLock (t n : Nat)
    (hT : ∀ c ∈ (lowerStr (Nat.repr t)).toList, c.isDigit = true)
    (hT0 : (lowerStr (Nat.repr t)).toList ≠ [])
    (hN : ∀ c ∈ (lowerStr (Nat.repr n)).toList, c.isDigit = true)
    (hN0 : (lowerStr (Nat.repr n)).toList ≠ []) :
    categorize (lostLockMsg (resId t) n) = "OTHER" := by
  have h1 := strContains_lostLock_false t n "lock wait timeout"
    (by decide) (by decide) hT hT0 hN hN0 (by decide) (by decide)
  have h2 := strContains_lostLock_false t n "deadlock"
    (by decide) (by decide) hT hT0 hN hN0 (by decide) (by decide)
  have h3 := strContains_lostLock_false t n "failed to acquire lock"
    (by decide) (by decide) hT hT0 hN hN0 (by decide) (by decide)
  simp [categorize, h1, h2, h3]

theorem categorize_notFound (t n : Nat)
    (hT : ∀ c ∈ (lowerStr (Nat.repr t)).toList, c.isDigit = true)
    (hT0 : (lowerStr (Nat.repr t)).toList ≠ [])
    (hN : ∀ c ∈ (lowerStr (Nat.repr n)).toList, c.isDigit = true)
    (hN0 : (lowerStr (Nat.repr n)).toList ≠ []) :
    categorize (notFoundMsg t n) = "OTHER" := by
  have h1 := strContains_notFound_false t n "lock wait timeout"
    (by decide) (by decide) hT hT0 hN hN0 (by decide) (by decide)
  have h2 := strContains_notFound_false t n "deadlock"
    (by decide) (by decide) hT hT0 hN hN0 (by decide) (by decide)
  have h3 := strContains_notFound_false t n "failed to acquire lock"
    (by decide) (by decide) hT hT0 hN hN0 (by decide) (by decide)
  simp [categorize, h1, h2, h3]

theorem categorize_ne_dlt (e : String)
    (h : strContains (lowerStr e) "failed to acquire lock" = false) :
    categorize e ≠ "DISTRIBUTED_LOCK_TIMEOUT" := by
  unfold categorize
  split_ifs with h1 h2
  · decide
  · rw [h] at h2
    exact Bool.noConfusion h2
  · decide

theorem categorize_contention_iff (e : String) :
    categorize e = "LOCK_CONTENTION" ↔
      (strContains (lowerStr e) "lock wait timeout" = true ∨
        strContains (lowerStr e) "deadlock" = true) := by
  unfold categorize
  split_ifs with h1 h2
  · rw [Bool.or_eq_true] at h1
    exact iff_of_true rfl h1
  · rw [Bool.or_eq_true] at h1
    exact iff_of_false (by decide) h1
  · rw [Bool.or_eq_true] at h1
    exact iff_of_false (by decide) h1

theorem categorize_eq_other (e : String)
    (h1 : strContains (lowerStr e) "lock wait timeout" = false)
    (h2 : strContains (lowerStr e) "deadlock" = false)
    (h3 : strContains (lowerStr e) "failed to acquire lock" = false) :
    categorize e = "OTHER" := by
  simp [categorize, h1, h2, h3]

theorem selectBeforeQuery_forUpdate_iff (iso : String) :
    strContains (selectBeforeQuery iso) "FOR UPDATE" = true ↔ iso = "SERIALIZABLE" := by
  by_cases h : iso = "SERIALIZABLE"
  · subst h
    exact iff_of_true (by decide) rfl
  · have hb : (iso == "SERIALIZABLE") = false := beq_eq_false_iff_ne.mpr h
    have hq : selectBeforeQuery iso
        = "SELECT trans_id, amount FROM trans WHERE trans_id = %s" := by
      simp [selectBeforeQuery, hb]
    rw [hq]
    exact iff_of_false (by decide) h

theorem beforeQuery_write (node transId : Nat) (newAmount : Rat) (iso : String)
    (env : WriteEnv) :
    (write_transaction node transId newAmount iso env).beforeQuery = none ∨
    (write_transaction node transId newAmount iso env).beforeQuery
      = some (selectBeforeQuery iso) := by
  obtain ⟨a, ce, ck, se, r, ue, me⟩ := env
  cases a <;> cases ce <;> cases ck <;> cases se <;> cases r <;> cases ue <;> cases me <;>
    first
      | exact Or.inl rfl
      | exact Or.inr rfl

theorem dwell_write (node transId : Nat) (newAmount : Rat) (iso : String)
    (env : WriteEnv) :
    (write_transaction node transId newAmount iso env).dwell = none ∨
    (write_transaction node transId newAmount iso env).dwell = some (sleep_time iso) := by
  obtain ⟨a, ce, ck, se, r, ue, me⟩ := env
  cases a <;> cases ce <;> cases ck <;> cases se <;> cases r <;> cases ue <;> cases me <;>
    first
      | exact Or.inl rfl
      | exact Or.inr rfl

/-- C3: in every worker execution (write_transaction or
delete_transaction) in which acquire_lock returned True, the finally
block invokes release_lock exactly once on the resource of this worker,
on every exit path (success, native engine error, lost lock, or any
other exception); additionally the released resource is the same
trans_{id} resource that was acquired. -/
theorem lock_release_exactly_once (node transId : Nat) (newAmount : Rat)
    (iso : String) (env : WriteEnv) (h : env.acquireOk = true) :
    (write_transaction node transId newAmount iso env).releaseCount = 1 ∧
    (delete_transaction node transId iso env).releaseCount = 1 ∧
    (write_transaction node transId newAmount iso env).resource = resId transId ∧
    (delete_transaction node transId iso env).resource = resId transId := by
  obtain ⟨a, ce, ck, se, r, ue, me⟩ := env
  cases a
  · exact Bool.noConfusion h
  · cases ce <;> cases ck <;> cases se <;> cases r <;> cases ue <;> cases me <;>
      exact ⟨rfl, rfl, rfl, rfl⟩

theorem lock_release_exactly_once_witness :
    (write_transaction 1 60 12000 "READ COMMITTED"
      ⟨true, none, true, none, some 1000, none, none⟩).releaseCount = 1 ∧
    (delete_transaction 1 60 "READ COMMITTED"
      ⟨true, none, true, none, some 1000, none, none⟩).releaseCount = 1 ∧
    (write_transaction 1 60 12000 "READ COMMITTED"
      ⟨true, none, true, none, some 1000, none, none⟩).resource = resId 60 ∧
    (delete_transaction 1 60 "READ COMMITTED"
      ⟨true, none, true, none, some 1000, none, none⟩).resource = resId 60 :=
  lock_release_exactly_once 1 60 12000 "READ COMMITTED"
    ⟨true, none, true, none, some 1000, none, none⟩ rfl

/-- C8: whenever write_transaction issues its pre-mutation read, the
query carries an explicit FOR UPDATE row lock exactly when the
isolation level is SERIALIZABLE; whenever it reaches the post-mutation
dwell, that dwell equals sleep_time of the level, which is 1.5 seconds
under SERIALIZABLE and 3 seconds under every other level, so the
SERIALIZABLE dwell is strictly shorter. -/
theorem for_update_and_dwell (node transId : Nat) (newAmount : Rat)
    (iso : String) (env : WriteEnv) :
    (∀ q, (write_transaction node transId newAmount iso env).beforeQuery = some q →
      (strContains q "FOR UPDATE" = true ↔ iso = "SERIALIZABLE")) ∧
    (∀ d, (write_transaction node transId newAmount iso env).dwell = some d →
      d = sleep_time iso) ∧
    sleep_time "SERIALIZABLE" = 3/2 ∧
    (iso ≠ "SERIALIZABLE" → sleep_time iso = 3 ∧ sleep_time "SERIALIZABLE" < sleep_time iso) := by
  refine ⟨?_, ?_, ?_, ?_⟩
  · intro q hq
    rcases beforeQuery_write node transId newAmount iso env with h | h
    · rw [h] at hq
      exact Option.noConfusion hq
    · rw [h, Option.some_inj] at hq
      rw [← hq]
      exact selectBeforeQuery_forUpdate_iff iso
  · intro d hd
    rcases dwell_write node transId newAmount iso env with h | h
    · rw [h] at hd
      exact Option.noConfusion hd
    · rw [h, Option.some_inj] at hd
      exact hd.symm
  · simp [sleep_time]
  · intro h
    have hb : (iso == "SERIALIZABLE") = false := beq_eq_false_iff_ne.mpr h
    constructor
    · simp [sleep_time, hb]
    · simp only [sleep_time, hb, Bool.false_eq_true, if_false, if_pos (by decide : ("SERIALIZABLE" == "SERIALIZABLE") = true)]
      norm_num

theorem for_update_and_dwell_witness :
    (strContains (selectBeforeQuery "SERIALIZABLE") "FOR UPDATE" = true ↔
      ("SERIALIZABLE" : String) = "SERIALIZABLE") ∧
    (sleep_time "READ COMMITTED" = 3 ∧
      sleep_time "SERIALIZABLE" < sleep_time "READ COMMITTED") :=
  ⟨(for_update_and_dwell 1 60 12000 "SERIALIZABLE"
      ⟨true, none, true, none, some 1000, none, none⟩).1
      (selectBeforeQuery "SERIALIZABLE") rfl,
   (for_update_and_dwell 1 60 12000 "READ COMMITTED"
      ⟨true, none, true, none, some 1000, none, none⟩).2.2.2 (by decide)⟩

/-- C4 counterexample: at a concrete worker whose lock re-verification
fails, the recorded error category is OTHER and not LOST_LOCK; the
classifier of the code defines no LOST_LOCK category. -/
theorem lost_lock_category_cex :
    (write_transaction 1 60 12000 "READ COMMITTED"
      ⟨true, none, false, none, some 1000, none, none⟩).entry.errorCategory
      = some "OTHER" ∧
    (write_transaction 1 60 12000 "READ COMMITTED"
      ⟨true, none, false, none, some 1000, none, none⟩).entry.errorCategory
      ≠ some "LOST_LOCK" ∧
    (write_transaction 1 60 12000 "READ COMMITTED"
      ⟨true, none, false, none, some 1000, none, none⟩).entry.status
      = TxStatus.FAILED := by
  refine ⟨by decide, by decide, rfl⟩

/-- C4 amended: whenever the re-verification of the distributed lock
(check_lock) returns False after a successful acquisition, the worker
(write_transaction as well as delete_transaction) issues no UPDATE or
DELETE, rolls the native transaction back, and records a FAILED outcome
whose error text reports the lost lock; the error_category recorded for
this outcome is OTHER, because the classifier of the code has no
LOST_LOCK category. -/
theorem lost_lock_aborts_before_mutation (node transId : Nat) (newAmount : Rat)
    (iso : String) (env : WriteEnv)
    (hA : env.acquireOk = true) (hC : env.connectErr = none) (hK : env.checkOk = false)
    (hT : ∀ c ∈ (lowerStr (Nat.repr transId)).toList, c.isDigit = true)
    (hT0 : (lowerStr (Nat.repr transId)).toList ≠ [])
    (hN : ∀ c ∈ (lowerStr (Nat.repr node)).toList, c.isDigit = true)
    (hN0 : (lowerStr (Nat.repr node)).toList ≠ []) :
    ((write_transaction node transId newAmount iso env).updateRan = false ∧
     (write_transaction node transId newAmount iso env).rollback = true ∧
     (write_transaction node transId newAmount iso env).entry.status = TxStatus.FAILED ∧
     (write_transaction node transId newAmount iso env).entry.errorMsg
       = some (lostLockMsg (resId transId) node) ∧
     (write_transaction node transId newAmount iso env).entry.errorCategory
       = some "OTHER") ∧
    ((delete_transaction node transId iso env).updateRan = false ∧
     (delete_transaction node transId iso env).rollback = true ∧
     (delete_transaction node transId iso env).entry.status = TxStatus.FAILED ∧
     (delete_transaction node transId iso env).entry.errorMsg
       = some (lostLockMsg (resId transId) node) ∧
     (delete_transaction node transId iso env).entry.errorCategory
       = some "OTHER") := by
  obtain ⟨a, ce, ck, se, r, ue, me⟩ := env
  cases a
  · exact Bool.noConfusion hA
  · cases ce
    · cases ck
      · refine ⟨⟨rfl, rfl, rfl, rfl, ?_⟩, ⟨rfl, rfl, rfl, rfl, ?_⟩⟩
        · show some (categorize (lostLockMsg (resId transId) node)) = some "OTHER"
          rw [categorize_lostLock transId node hT hT0 hN hN0]
        · show some (categorize (lostLockMsg (resId transId) node)) = some "OTHER"
          rw [categorize_lostLock transId node hT hT0 hN hN0]
      · exact Bool.noConfusion hK
    · exact Option.noConfusion hC

theorem lost_lock_aborts_before_mutation_witness :
    (write_transaction 1 60 12000 "SERIALIZABLE"
      ⟨true, none, false, none, some 1000, none, none⟩).updateRan = false ∧
    (delete_transaction 1 60 "SERIALIZABLE"
      ⟨true, none, false, none, some 1000, none, none⟩).entry.errorCategory
      = some "OTHER" :=
  ⟨(lost_lock_aborts_before_mutation 1 60 12000 "SERIALIZABLE"
      ⟨true, none, false, none, some 1000, none, none⟩ rfl rfl rfl
      (by decide) (by decide) (by decide) (by decide)).1.1,
   (lost_lock_aborts_before_mutation 1 60 12000 "SERIALIZABLE"
      ⟨true, none, false, none, some 1000, none, none⟩ rfl rfl rfl
      (by decide) (by decide) (by decide) (by decide)).2.2.2.2.2⟩

theorem write_transaction_cases (node transId : Nat) (newAmount : Rat)
    (iso : String) (env : WriteEnv) :
    (env.acquireOk = false ∧
      (write_transaction node transId newAmount iso env).entry
        = failRecord "WRITE" node (acquireFailMsg (resId transId))) ∨
    (env.acquireOk = true ∧ ∃ e, (env.connectErr = some e ∨ env.selectErr = some e ∨
        env.updateErr = some e ∨ env.commitErr = some e) ∧
      (write_transaction node transId newAmount iso env).entry
        = failRecord "WRITE" node e) ∨
    (env.acquireOk = true ∧
      (write_transaction node transId newAmount iso env).entry
        = failRecord "WRITE" node (lostLockMsg (resId transId) node)) ∨
    (env.acquireOk = true ∧
      (write_transaction node transId newAmount iso env).entry
        = failRecord "WRITE" node (notFoundMsg transId node)) ∨
    (env.acquireOk = true ∧ ∃ b, (write_transaction node transId newAmount iso env).entry
        = { rtype := "WRITE", node := node, status := .SUCCESS, beforeAmount := some b,
            afterAmount := some newAmount, errorMsg := none, errorCategory := none }) := by
  obtain ⟨a, ce, ck, se, r, ue, me⟩ := env
  cases a <;> cases ce <;> cases ck <;> cases se <;> cases r <;> cases ue <;> cases me <;>
    first
      | exact Or.inl ⟨rfl, rfl⟩
      | exact Or.inr (Or.inl ⟨rfl, _, Or.inl rfl, rfl⟩)
      | exact Or.inr (Or.inl ⟨rfl, _, Or.inr (Or.inl rfl), rfl⟩)
      | exact Or.inr (Or.inl ⟨rfl, _, Or.inr (Or.inr (Or.inl rfl)), rfl⟩)
      | exact Or.inr (Or.inl ⟨rfl, _, Or.inr (Or.inr (Or.inr rfl)), rfl⟩)
      | exact Or.inr (Or.inr (Or.inl ⟨rfl, rfl⟩))
      | exact Or.inr (Or.inr (Or.inr (Or.inl ⟨rfl, rfl⟩)))
      | exact Or.inr (Or.inr (Or.inr (Or.inr ⟨rfl, _, rfl⟩)))

theorem write_rollback_iff (node transId : Nat) (amt : Rat) (iso : String)
    (env : WriteEnv) :
    (write_transaction node transId amt iso env).entry.status = TxStatus.FAILED →
    ((write_transaction node transId amt iso env).rollback = true ↔
      (env.acquireOk = true ∧ env.connectErr = none)) := by
  obtain ⟨a, ce, ck, se, r, ue, me⟩ := env
  cases a <;> cases ce <;> cases ck <;> cases se <;> cases r <;> cases ue <;> cases me <;>
    intro hf <;>
    first
      | exact TxStatus.noConfusion hf
      | exact iff_of_true rfl ⟨rfl, rfl⟩
      | exact iff_of_false (fun hc => Bool.noConfusion hc) (fun hc => Bool.noConfusion hc.1)
      | exact iff_of_false (fun hc => Bool.noConfusion hc) (fun hc => Option.noConfusion hc.2)

/-- C5: every error raised inside write_transaction is caught locally
and turns into a recorded outcome instead of propagating: the status is
always exactly one of SUCCESS and FAILED, FAILED exactly when an error
text was recorded, the recorded category is always the one the
classifier assigns to the recorded text, LOCK_CONTENTION is assigned
exactly when the lowercased text contains lock wait timeout or
deadlock, DISTRIBUTED_LOCK_TIMEOUT exactly when the step-1 DLM acquire
failed, and every remaining failure is OTHER; moreover, on every caught
error the native transaction is rolled back exactly when the database
connection had been established (a step-1 acquire failure or a failure
of the connect call itself raises while conn is still None, before any
native transaction exists, so there is nothing to roll back on those
two paths).  The hypotheses state that no externally raised engine
error text contains the marker substring failed to acquire lock, and
that the decimal renderings of the identifiers consist of digits. -/
theorem worker_error_classification (node transId : Nat) (newAmount : Rat)
    (iso : String) (env : WriteEnv)
    (henv : ∀ e, (env.connectErr = some e ∨ env.selectErr = some e ∨
        env.updateErr = some e ∨ env.commitErr = some e) →
      strContains (lowerStr e) "failed to acquire lock" = false)
    (hT : ∀ c ∈ (lowerStr (Nat.repr transId)).toList, c.isDigit = true)
    (hT0 : (lowerStr (Nat.repr transId)).toList ≠ [])
    (hN : ∀ c ∈ (lowerStr (Nat.repr node)).toList, c.isDigit = true)
    (hN0 : (lowerStr (Nat.repr node)).toList ≠ []) :
    ((write_transaction node transId newAmount iso env).entry.status = TxStatus.FAILED →
      ((write_transaction node transId newAmount iso env).rollback = true ↔
        (env.acquireOk = true ∧ env.connectErr = none))) ∧
    ((write_transaction node transId newAmount iso env).entry.status = TxStatus.SUCCESS ∨
      (write_transaction node transId newAmount iso env).entry.status = TxStatus.FAILED) ∧
    ((write_transaction node transId newAmount iso env).entry.status = TxStatus.FAILED ↔
      (write_transaction node transId newAmount iso env).entry.errorMsg ≠ none) ∧
    (∀ e, (write_transaction node transId newAmount iso env).entry.errorMsg = some e →
      (write_transaction node transId newAmount iso env).entry.errorCategory
        = some (categorize e)) ∧
    (∀ e, (write_transaction node transId newAmount iso env).entry.errorMsg = some e →
      ((write_transaction node transId newAmount iso env).entry.errorCategory
          = some "LOCK_CONTENTION" ↔
        (strContains (lowerStr e) "lock wait timeout" = true ∨
          strContains (lowerStr e) "deadlock" = true))) ∧
    ((write_transaction node transId newAmount iso env).entry.errorCategory
        = some "DISTRIBUTED_LOCK_TIMEOUT" ↔ env.acquireOk = false) ∧
    (∀ e, (write_transaction node transId newAmount iso env).entry.errorMsg = some e →
      strContains (lowerStr e) "lock wait timeout" = false →
      strContains (lowerStr e) "deadlock" = false →
      env.acquireOk = true →
      (write_transaction node transId newAmount iso env).entry.errorCategory
        = some "OTHER") := by
  refine ⟨write_rollback_iff node transId newAmount iso env, ?_⟩
  rcases write_transaction_cases node transId newAmount iso env with
    ⟨ha, he⟩ | ⟨ha, e0, hsrc, he⟩ | ⟨ha, he⟩ | ⟨ha, he⟩ | ⟨ha, b, he⟩
  · refine ⟨Or.inr (by rw [he]; rfl), ?_, ?_, ?_, ?_, ?_⟩
    · rw [he]
      exact iff_of_true rfl (fun hnone => Option.noConfusion hnone)
    · intro e2 hmsg
      rw [he] at hmsg ⊢
      obtain rfl := Option.some_inj.mp hmsg
      rfl
    · intro e2 hmsg
      rw [he] at hmsg ⊢
      obtain rfl := Option.some_inj.mp hmsg
      show some (categorize (acquireFailMsg (resId transId))) = some "LOCK_CONTENTION" ↔ _
      rw [Option.some_inj]
      exact categorize_contention_iff _
    · rw [he]
      show some (categorize (acquireFailMsg (resId transId)))
          = some "DISTRIBUTED_LOCK_TIMEOUT" ↔ _
      rw [categorize_acquireFail transId hT hT0]
      exact iff_of_true rfl ha
    · intro e2 hmsg h1 h2 hacq
      rw [ha] at hacq
      exact Bool.noConfusion hacq
  · refine ⟨Or.inr (by rw [he]; rfl), ?_, ?_, ?_, ?_, ?_⟩
    · rw [he]
      exact iff_of_true rfl (fun hnone => Option.noConfusion hnone)
    · intro e2 hmsg
      rw [he] at hmsg ⊢
      obtain rfl := Option.some_inj.mp hmsg
      rfl
    · intro e2 hmsg
      rw [he] at hmsg ⊢
      obtain rfl := Option.some_inj.mp hmsg
      show some (categorize e0) = some "LOCK_CONTENTION" ↔ _
      rw [Option.some_inj]
      exact categorize_contention_iff _
    · rw [he]
      show some (categorize e0) = some "DISTRIBUTED_LOCK_TIMEOUT" ↔ _
      refine iff_of_false ?_ ?_
      · intro hcat
        exact categorize_ne_dlt e0 (henv e0 hsrc) (Option.some_inj.mp hcat)
      · intro hf
        rw [ha] at hf
        exact Bool.noConfusion hf
    · intro e2 hmsg h1 h2 hacq
      rw [he] at hmsg ⊢
      obtain rfl := Option.some_inj.mp hmsg
      show some (categorize e0) = some "OTHER"
      rw [categorize_eq_other e0 h1 h2 (henv e0 hsrc)]
  · refine ⟨Or.inr (by rw [he]; rfl), ?_, ?_, ?_, ?_, ?_⟩
    · rw [he]
      exact iff_of_true rfl (fun hnone => Option.noConfusion hnone)
    · intro e2 hmsg
      rw [he] at hmsg ⊢
      obtain rfl := Option.some_inj.mp hmsg
      rfl
    · intro e2 hmsg
      rw [he] at hmsg ⊢
      obtain rfl := Option.some_inj.mp hmsg
      show some (categorize (lostLockMsg (resId transId) node)) = some "LOCK_CONTENTION" ↔ _
      rw [Option.some_inj]
      exact categorize_contention_iff _
    · rw [he]
      show some (categorize (lostLockMsg (resId transId) node))
          = some "DISTRIBUTED_LOCK_TIMEOUT" ↔ _
      rw [categorize_lostLock transId node hT hT0 hN hN0]
      refine iff_of_false (by decide) ?_
      intro hf
      rw [ha] at hf
      exact Bool.noConfusion hf
    · intro e2 hmsg h1 h2 hacq
      rw [he] at hmsg ⊢
      obtain rfl := Option.some_inj.mp hmsg
      show some (categorize (lostLockMsg (resId transId) node)) = some "OTHER"
      rw [categorize_lostLock transId node hT hT0 hN hN0]
  · refine ⟨Or.inr (by rw [he]; rfl), ?_, ?_, ?_, ?_, ?_⟩
    · rw [he]
      exact iff_of_true rfl (fun hnone => Option.noConfusion hnone)
    · intro e2 hmsg
      rw [he] at hmsg ⊢
      obtain rfl := Option.some_inj.mp hmsg
      rfl
    · intro e2 hmsg
      rw [he] at hmsg ⊢
      obtain rfl := Option.some_inj.mp hmsg
      show some (categorize (notFoundMsg transId node)) = some "LOCK_CONTENTION" ↔ _
      rw [Option.some_inj]
      exact categorize_contention_iff _
    · rw [he]
      show some (categorize (notFoundMsg transId node))
          = some "DISTRIBUTED_LOCK_TIMEOUT" ↔ _
      rw [categorize_notFound transId node hT hT0 hN hN0]
      refine iff_of_false (by decide) ?_
      intro hf
      rw [ha] at hf
      exact Bool.noConfusion hf
    · intro e2 hmsg h1 h2 hacq
      rw [he] at hmsg ⊢
      obtain rfl := Option.some_inj.mp hmsg
      show some (categorize (notFoundMsg transId node)) = some "OTHER"
      rw [categorize_notFound transId node hT hT0 hN hN0]
  · refine ⟨Or.inl (by rw [he]), ?_, ?_, ?_, ?_, ?_⟩
    · rw [he]
      refine iff_of_false ?_ ?_
      · intro h
        exact TxStatus.noConfusion h
      · intro hne
        exact hne rfl
    · intro e2 hmsg
      rw [he] at hmsg
      exact Option.noConfusion hmsg
    · intro e2 hmsg
      rw [he] at hmsg
      exact Option.noConfusion hmsg
    · rw [he]
      refine iff_of_false ?_ ?_
      · intro h
        exact Option.noConfusion h
      · intro hf
        rw [ha] at hf
        exact Bool.noConfusion hf
    · intro e2 hmsg
      rw [he] at hmsg
      exact Option.noConfusion hmsg

theorem worker_error_classification_witness :
    (write_transaction 1 60 12000 "REPEATABLE READ"
      ⟨true, none, true, none, some 1000,
        some "Lock wait timeout exceeded; try restarting transaction", none⟩).entry.errorCategory
      = some "LOCK_CONTENTION" ↔
    (strContains (lowerStr "Lock wait timeout exceeded; try restarting transaction")
        "lock wait timeout" = true ∨
      strContains (lowerStr "Lock wait timeout exceeded; try restarting transaction")
        "deadlock" = true) :=
  (worker_error_classification 1 60 12000 "REPEATABLE READ"
    ⟨true, none, true, none, some 1000,
      some "Lock wait timeout exceeded; try restarting transaction", none⟩
    (by
      intro e h
      rcases h with h | h | h | h
      · exact Option.noConfusion h
      · exact Option.noConfusion h
      · cases Option.some_inj.mp h
        decide
      · exact Option.noConfusion h)
    (by decide) (by decide) (by decide) (by decide)).2.2.2.2.1
    "Lock wait timeout exceeded; try restarting transaction" rfl

/-- C1 counterexample: at a non-SERIALIZABLE isolation level the oracle
returns True although the final amounts of the two runs differ by far
more than the 0.01 tolerance, so the oracle does not compare final
states at every isolation level. -/
theorem validate_serializability_nonserializable_cex :
    validate_serializability
      [⟨"WRITE", "SUCCESS", 1000, 100, 0, 1⟩]
      [⟨"WRITE", "SUCCESS", 1000, 200, 0, 1⟩] "READ COMMITTED" = true ∧
    ¬(ratAbs ((100 : Rat) - 200) < 1/100) := by
  constructor
  · rfl
  · norm_num [ratAbs]

/-- C1 amended: validate_serializability returns False exactly when the
isolation level is SERIALIZABLE, both runs own at least one successful
entry, the final (latest end time) successful entries of both runs are
WRITEs, and their after amounts differ by at least the 0.01 tolerance;
in every other situation — any non-SERIALIZABLE level, a run without
successes, final DELETE against DELETE, or mixed final types — it
returns True without comparing final states. -/
theorem validate_serializability_characterization (conc seq : List RunRec)
    (iso : String) :
    validate_serializability conc seq iso = false ↔
      (iso = "SERIALIZABLE" ∧
        ∃ cf sf, (sortByEnd (successesOf conc)).getLast? = some cf ∧
          (sortByEnd (successesOf seq)).getLast? = some sf ∧
          cf.rtype = "WRITE" ∧ sf.rtype = "WRITE" ∧
          ¬(ratAbs (cf.afterAmount - sf.afterAmount) < 1/100)) := by
  by_cases hiso : iso = "SERIALIZABLE"
  · subst hiso
    unfold validate_serializability
    rw [if_pos (by decide)]
    rcases hc : (sortByEnd (successesOf conc)).getLast? with _ | cf
    · refine iff_of_false ?_ ?_
      · intro h
        exact Bool.noConfusion h
      · rintro ⟨-, cf, sf, hc2, -, -⟩
        exact Option.noConfusion hc2
    · rcases hs : (sortByEnd (successesOf seq)).getLast? with _ | sf
      · refine iff_of_false ?_ ?_
        · intro h
          exact Bool.noConfusion h
        · rintro ⟨-, cf2, sf2, -, hs2, -⟩
          exact Option.noConfusion hs2
      · show (if cf.rtype == "DELETE" && sf.rtype == "DELETE" then true
            else if cf.rtype == "WRITE" && sf.rtype == "WRITE" then
              decide (ratAbs (cf.afterAmount - sf.afterAmount) < 1/100)
            else true) = false ↔ _
        by_cases hd : (cf.rtype == "DELETE" && sf.rtype == "DELETE") = true
        · rw [if_pos hd]
          refine iff_of_false (fun h => Bool.noConfusion h) ?_
          rintro ⟨-, cf2, sf2, hc2, hs2, hw1, hw2, -⟩
          obtain rfl := Option.some_inj.mp hc2
          rw [Bool.and_eq_true, beq_iff_eq, beq_iff_eq] at hd
          rw [hd.1] at hw1
          exact absurd hw1 (by decide)
        · rw [if_neg hd]
          by_cases hw : (cf.rtype == "WRITE" && sf.rtype == "WRITE") = true
          · rw [if_pos hw]
            rw [Bool.and_eq_true, beq_iff_eq, beq_iff_eq] at hw
            rw [decide_eq_false_iff_not]
            constructor
            · intro h
              exact ⟨rfl, cf, sf, rfl, rfl, hw.1, hw.2, h⟩
            · rintro ⟨-, cf2, sf2, hc2, hs2, -, -, h⟩
              obtain rfl := Option.some_inj.mp hc2
              obtain rfl := Option.some_inj.mp hs2
              exact h
          · rw [if_neg hw]
            refine iff_of_false (fun h => Bool.noConfusion h) ?_
            rintro ⟨-, cf2, sf2, hc2, hs2, hw1, hw2, -⟩
            obtain rfl := Option.some_inj.mp hc2
            obtain rfl := Option.some_inj.mp hs2
            exact hw (by rw [Bool.and_eq_true, beq_iff_eq, beq_iff_eq]; exact ⟨hw1, hw2⟩)
  · unfold validate_serializability
    have hb : (iso == "SERIALIZABLE") = false := beq_eq_false_iff_ne.mpr hiso
    rw [if_neg (by rw [hb]; exact fun h => Bool.noConfusion h)]
    exact iff_of_false (fun h => Bool.noConfusion h) (fun h => hiso h.1)

/-- C6 counterexample: an adjacent pair in commit order whose later
entry observed a before value far from the after value of the earlier
entry is not flagged when the later entry is a DELETE, because the scan
only considers pairs in which both entries are WRITEs. -/
theorem lost_update_delete_pair_cex :
    lostUpdateFlags
      [⟨"WRITE", "SUCCESS", 1000, 500, 0, 1⟩, ⟨"DELETE", "SUCCESS", 100, 0, 0, 2⟩] = [] ∧
    adjacentPairs (sortByEnd (successesOf
      [⟨"WRITE", "SUCCESS", 1000, 500, 0, 1⟩, ⟨"DELETE", "SUCCESS", 100, 0, 0, 2⟩]))
      = [(⟨"WRITE", "SUCCESS", 1000, 500, 0, 1⟩, ⟨"DELETE", "SUCCESS", 100, 0, 0, 2⟩)] ∧
    (1 : Rat)/100 < ratAbs ((100 : Rat) - 500) := by
  have hsort : sortByEnd (successesOf
      [⟨"WRITE", "SUCCESS", 1000, 500, 0, 1⟩, ⟨"DELETE", "SUCCESS", 100, 0, 0, 2⟩])
      = [⟨"WRITE", "SUCCESS", 1000, 500, 0, 1⟩, ⟨"DELETE", "SUCCESS", 100, 0, 0, 2⟩] := by
    norm_num [sortByEnd, successesOf, insertEnd, List.filter]
  refine ⟨?_, ?_, by norm_num [ratAbs]⟩
  · unfold lostUpdateFlags
    rw [hsort]
    rfl
  · rw [hsort]
    rfl

/-- C6 amended: the lost-update scan flags exactly the adjacent pairs,
in the end-time order of the successful entries, in which both entries
are WRITEs and the before amount of the later entry differs from the
after amount of the earlier one by more than the 0.01 tolerance; a pair
involving a DELETE is never flagged. -/
theorem lost_update_flags_characterization (results : List RunRec) (x y : RunRec) :
    (x, y) ∈ lostUpdateFlags results ↔
      ((x, y) ∈ adjacentPairs (sortByEnd (successesOf results)) ∧
        x.rtype = "WRITE" ∧ y.rtype = "WRITE" ∧
        (1 : Rat)/100 < ratAbs (y.beforeAmount - x.afterAmount)) := by
  unfold lostUpdateFlags
  rw [List.mem_filter]
  simp only [Bool.and_eq_true, beq_iff_eq, decide_eq_true_eq]
  constructor
  · rintro ⟨hmem, ⟨h1, h2⟩, h3⟩
    exact ⟨hmem, h1, h2, h3⟩
  · rintro ⟨hmem, h1, h2, h3⟩
    exact ⟨hmem, ⟨h1, h2⟩, h3⟩

/-- C7 counterexample: the dedicated READ UNCOMMITTED dirty-read test
does log a Dirty Read Detected anomaly when the reader observes the
in-flight value even though the isolation level there is READ
UNCOMMITTED; it records the run as PASS because the dirty read is the
expected outcome at that level, so the observation is flagged, merely
not treated as a failure.  The generic detector, by contrast, does not
flag it. -/
theorem ru_dirty_read_logged_cex :
    ru_dirty_read_detected (some 3000) 3000 = true ∧
    ru_test_result (ru_dirty_read_detected (some 3000) 3000) = "PASS" ∧
    dirty_read_detected [3000] 3000 "READ UNCOMMITTED" = false := by
  refine ⟨?_, ?_, ?_⟩
  · simp [ru_dirty_read_detected]
  · simp [ru_dirty_read_detected, ru_test_result]
  · simp [dirty_read_detected]

/-- C7 amended: the detector of the generic read-write concurrency test
logs a Dirty Read anomaly exactly when some observed reader value
equals the in-flight value and the isolation level is not READ
UNCOMMITTED, so that detector never flags under READ UNCOMMITTED; the
dedicated READ UNCOMMITTED test, however, logs a Dirty Read Detected
anomaly exactly when the observed value equals the in-flight value, and
marks such a run PASS (the expected outcome). -/
theorem dirty_read_detection_characterization (readValues : List Rat)
    (newVal : Rat) (iso : String) :
    (dirty_read_detected readValues newVal iso = true ↔
      (newVal ∈ readValues ∧ iso ≠ "READ UNCOMMITTED")) ∧
    (∀ v : Rat, ru_dirty_read_detected (some v) newVal = true ↔ v = newVal) ∧
    ru_dirty_read_detected none newVal = false ∧
    (∀ d, ru_test_result d = "PASS" ↔ d = true) := by
  refine ⟨?_, ?_, rfl, ?_⟩
  · unfold dirty_read_detected
    rw [List.any_eq_true]
    constructor
    · rintro ⟨v, hv, hcond⟩
      rw [Bool.and_eq_true, beq_iff_eq] at hcond
      obtain ⟨rfl, hni⟩ := hcond
      rw [Bool.not_eq_eq_eq_not] at hni
      exact ⟨hv, beq_eq_false_iff_ne.mp (by simpa using hni)⟩
    · rintro ⟨hv, hne⟩
      refine ⟨newVal, hv, ?_⟩
      rw [Bool.and_eq_true, beq_iff_eq]
      refine ⟨rfl, ?_⟩
      rw [beq_eq_false_iff_ne.mpr hne]
      rfl
  · intro v
    simp [ru_dirty_read_detected]
  · intro d
    cases d
    · exact iff_of_false (by decide) (by decide)
    · exact iff_of_true rfl rfl

theorem write_node_eq (node transId : Nat) (amt : Rat) (iso : String)
    (env : WriteEnv) : (write_transaction node transId amt iso env).entry.node = node := by
  obtain ⟨a, ce, ck, se, r, ue, me⟩ := env
  cases a <;> cases ce <;> cases ck <;> cases se <;> cases r <;> cases ue <;> cases me <;> rfl

theorem write_resource_eq (node transId : Nat) (amt : Rat) (iso : String)
    (env : WriteEnv) :
    (write_transaction node transId amt iso env).resource = resId transId := by
  obtain ⟨a, ce, ck, se, r, ue, me⟩ := env
  cases a <;> cases ce <;> cases ck <;> cases se <;> cases r <;> cases ue <;> cases me <;> rfl

theorem write_status_total (node transId : Nat) (amt : Rat) (iso : String)
    (env : WriteEnv) :
    (write_transaction node transId amt iso env).entry.status = TxStatus.SUCCESS ∨
    (write_transaction node transId amt iso env).entry.status = TxStatus.FAILED := by
  rcases write_transaction_cases node transId amt iso env with
    ⟨-, he⟩ | ⟨-, e0, -, he⟩ | ⟨-, he⟩ | ⟨-, he⟩ | ⟨-, b, he⟩ <;> rw [he] <;>
    first
      | exact Or.inl rfl
      | exact Or.inr rfl

/-- C9 counterexample: at a concrete node whose restore call raises, the
except block of restore_original_value leaves the row at its previous
value instead of the 1000.00 baseline (printing only a warning), so the
baseline is not restored on every node unconditionally; the same row is
restored when no exception occurs. -/
theorem restore_failure_cex :
    restore_original_value true (some 55) = some 55 ∧
    restore_original_value true (some 55) ≠ some 1000 ∧
    restore_original_value false (some 55) = some 1000 := by
  refine ⟨rfl, ?_, rfl⟩
  intro h
  have h2 := Option.some_inj.mp h
  norm_num at h2

/-- C9 amended: after a completed update_only run every launched worker
has exactly one recorded outcome: the results list carries ten entries
keyed by ten pairwise distinct transaction ids, every recorded status
is exactly one of SUCCESS and FAILED, four workers ran on node 1, four
on node 2 and two on node 3, all against the same trans resource; the
run then attempts to restore the 1000.00 baseline on each of nodes 1, 2
and 3, and on every node whose restore raises no exception the row ends
at the baseline whether or not it had been deleted; a restore exception
is caught and reported as a warning only, leaving that node at its
previous state. -/
theorem run_test_outcome_invariants (transId : Nat) (iso : String)
    (envs : String → WriteEnv) :
    (run_test_update_only transId iso envs).length = 10 ∧
    ((run_test_update_only transId iso envs).map Prod.fst).Nodup ∧
    (∀ p ∈ run_test_update_only transId iso envs,
      p.2.entry.status = TxStatus.SUCCESS ∨ p.2.entry.status = TxStatus.FAILED) ∧
    ((run_test_update_only transId iso envs).filter
      (fun p => p.2.entry.node == 1)).length = 4 ∧
    ((run_test_update_only transId iso envs).filter
      (fun p => p.2.entry.node == 2)).length = 4 ∧
    ((run_test_update_only transId iso envs).filter
      (fun p => p.2.entry.node == 3)).length = 2 ∧
    (∀ p ∈ run_test_update_only transId iso envs, p.2.resource = resId transId) ∧
    (∀ row, restore_original_value false row = some 1000) ∧
    (∀ row, restore_original_value true row = row) ∧
    restoredNodes = [1, 2, 3] := by
  refine ⟨rfl, ?_, ?_, ?_, ?_, ?_, ?_, ?_, ?_, rfl⟩
  · have hmap : (run_test_update_only transId iso envs).map Prod.fst
        = ["T1_WRITER_Node1", "T2_WRITER_Node1", "T3_WRITER_Node1", "T4_WRITER_Node1",
           "T5_WRITER_Node2", "T6_WRITER_Node2", "T7_WRITER_Node2", "T8_WRITER_Node2",
           "T9_WRITER_Node3", "T10_WRITER_Node3"] := rfl
    rw [hmap]
    decide
  · intro p hp
    obtain ⟨s, hsmem, rfl⟩ := List.mem_map.mp hp
    exact write_status_total s.2.1 transId s.2.2 iso (envs s.1)
  · simp [run_test_update_only, workerSpecsUpdateOnly, List.filter_cons, write_node_eq]
  · simp [run_test_update_only, workerSpecsUpdateOnly, List.filter_cons, write_node_eq]
  · simp [run_test_update_only, workerSpecsUpdateOnly, List.filter_cons, write_node_eq]
  · intro p hp
    obtain ⟨s, hsmem, rfl⟩ := List.mem_map.mp hp
    exact write_resource_eq s.2.1 transId s.2.2 iso (envs s.1)
  · intro row
    cases row <;> rfl
  · intro row
    rfl

theorem run_test_outcome_invariants_witness :
    (write_transaction 1 60 (11000 + 1 * (111111/100)) "SERIALIZABLE"
        ((fun _ => (⟨true, none, true, none, some 1000, none, none⟩ : WriteEnv))
          "T1_WRITER_Node1")).entry.status = TxStatus.SUCCESS ∨
    (write_transaction 1 60 (11000 + 1 * (111111/100)) "SERIALIZABLE"
        ((fun _ => (⟨true, none, true, none, some 1000, none, none⟩ : WriteEnv))
          "T1_WRITER_Node1")).entry.status = TxStatus.FAILED :=
  (run_test_outcome_invariants 60 "SERIALIZABLE"
      (fun _ => ⟨true, none, true, none, some 1000, none, none⟩)).2.2.1
    ("T1_WRITER_Node1",
      write_transaction 1 60 (11000 + 1 * (111111/100)) "SERIALIZABLE"
        ((fun _ => (⟨true, none, true, none, some 1000, none, none⟩ : WriteEnv))
          "T1_WRITER_Node1"))
    (List.mem_cons_self _ _)

/-- C10: execute_query never lets an exception escape: every call
returns a result dict whose success, duration, timestamp, node_id and
query fields are always present; success is False together with the
caught error text exactly when an exception occurred; an automatic
commit is issued exactly when no exception occurred, auto_commit is
True and the stripped uppercased statement begins with INSERT, UPDATE,
DELETE, CREATE, DROP or ALTER; the transaction helpers built on it
pass auto_commit False and therefore never auto-commit. -/
theorem execute_query_contract (node : Nat) (query : String) (ac : Bool)
    (env : QueryEnv) :
    ((execute_query node query ac env).success = true ↔ env.execErr = none) ∧
    ((execute_query node query ac env).success = false →
      ∃ e, env.execErr = some e ∧ (execute_query node query ac env).error = some e) ∧
    (execute_query node query ac env).node_id = node ∧
    (execute_query node query ac env).query = truncQuery query ∧
    (execute_query node query ac env).duration = env.elapsed ∧
    (execute_query node query ac env).timestamp = env.timestampStr ∧
    ((execute_query node query ac env).committed = true ↔
      (env.execErr = none ∧ ac = true ∧ isWriteStmt query = true)) ∧
    (start_transaction node env).committed = false ∧
    (commit_transaction node env).committed = false ∧
    (rollback_transaction node env).committed = false ∧
    (update_transaction_record node env).committed = false := by
  obtain ⟨ee, rc, el, ts⟩ := env
  cases ee
  · refine ⟨iff_of_true rfl rfl, ?_, rfl, rfl, rfl, rfl, ?_, ?_, ?_, ?_, ?_⟩
    · intro h
      exact Bool.noConfusion h
    · show (ac && isWriteStmt query) = true ↔ _
      rw [Bool.and_eq_true]
      constructor
      · rintro ⟨h1, h2⟩
        exact ⟨rfl, h1, h2⟩
      · rintro ⟨-, h1, h2⟩
        exact ⟨h1, h2⟩
    · show (false && isWriteStmt "START TRANSACTION") = false
      rfl
    · show (false && isWriteStmt "COMMIT") = false
      rfl
    · show (false && isWriteStmt "ROLLBACK") = false
      rfl
    · show (false && isWriteStmt "UPDATE trans SET amount = %s WHERE trans_id = %s") = false
      rfl
  · refine ⟨iff_of_false (fun h => Bool.noConfusion h) (fun h => Option.noConfusion h),
      ?_, rfl, rfl, rfl, rfl, ?_, rfl, rfl, rfl, rfl⟩
    · intro _
      exact ⟨_, rfl, rfl⟩
    · refine iff_of_false (fun h => Bool.noConfusion h) ?_
      rintro ⟨h, -, -⟩
      exact Option.noConfusion h

theorem execute_query_contract_witness :
    ∃ e, (some "Lost connection to MySQL server" : Option String) = some e ∧
      (execute_query 1 "UPDATE trans SET amount = 500 WHERE trans_id = 60" true
        ⟨some "Lost connection to MySQL server", 0, 1, "10:00:00.000"⟩).error = some e :=
  (execute_query_contract 1 "UPDATE trans SET amount = 500 WHERE trans_id = 60" true
    ⟨some "Lost connection to MySQL server", 0, 1, "10:00:00.000"⟩).2.1 rfl

theorem lockOwner_cons_self (st : LockState) (self res : String) (n : Nat) :
    lockOwner (((res, n), self) :: st) res n = some self := by
  simp [lockOwner]

theorem lockOwner_cons_ne (st : LockState) (k : String × Nat) (o : String)
    (res : String) (n : Nat) (h : k ≠ (res, n)) :
    lockOwner ((k, o) :: st) res n = lockOwner st res n := by
  simp [lockOwner, h]

theorem lockOwner_releaseNode_self (st : LockState) (self res : String) (n : Nat) :
    lockOwner (releaseNode st self res n) res n ≠ some self := by
  induction st with
  | nil =>
      simp [releaseNode, lockOwner]
  | cons e t ih =>
      obtain ⟨k, o⟩ := e
      by_cases hk : k = (res, n)
      · subst hk
        by_cases ho : o = self
        · subst ho
          have hdrop : releaseNode (((res, n), o) :: t) o res n = releaseNode t o res n := by
            simp [releaseNode]
          rw [hdrop]
          exact ih
        · have hbeq : (o == self) = false := beq_eq_false_iff_ne.mpr ho
          have hkeep : releaseNode (((res, n), o) :: t) self res n
              = ((res, n), o) :: releaseNode t self res n := by
            simp [releaseNode, hbeq]
          rw [hkeep]
          have hown : lockOwner (((res, n), o) :: releaseNode t self res n) res n = some o := by
            simp [lockOwner]
          rw [hown]
          intro hcontra
          exact ho (Option.some_inj.mp hcontra)
      · have hbeq : (k == (res, n)) = false := beq_eq_false_iff_ne.mpr hk
        have hkeep : releaseNode ((k, o) :: t) self res n = (k, o) :: releaseNode t self res n := by
          simp [releaseNode, hbeq]
        rw [hkeep, lockOwner_cons_ne _ k o res n hk]
        exact ih

theorem lockOwner_releaseNode_other (st : LockState) (self res : String) (m n : Nat)
    (h : m ≠ n) :
    lockOwner (releaseNode st self res m) res n = lockOwner st res n := by
  induction st with
  | nil => rfl
  | cons e t ih =>
      obtain ⟨k, o⟩ := e
      have hkey : (res, m) ≠ (res, n) := fun hc => h (congrArg Prod.snd hc)
      by_cases hk : k = (res, m)
      · subst hk
        by_cases ho : o = self
        · subst ho
          have hdrop : releaseNode (((res, m), o) :: t) o res m = releaseNode t o res m := by
            simp [releaseNode]
          rw [hdrop, ih, lockOwner_cons_ne t (res, m) o res n hkey]
        · have hbeq : (o == self) = false := beq_eq_false_iff_ne.mpr ho
          have hkeep : releaseNode (((res, m), o) :: t) self res m
              = ((res, m), o) :: releaseNode t self res m := by
            simp [releaseNode, hbeq]
          rw [hkeep, lockOwner_cons_ne _ (res, m) o res n hkey,
            lockOwner_cons_ne t (res, m) o res n hkey, ih]
      · have hbeq : (k == (res, m)) = false := beq_eq_false_iff_ne.mpr hk
        have hkeep : releaseNode ((k, o) :: t) self res m = (k, o) :: releaseNode t self res m := by
          simp [releaseNode, hbeq]
        by_cases hkn : k = (res, n)
        · subst hkn
          rw [hkeep]
          simp [lockOwner]
        · rw [hkeep, lockOwner_cons_ne _ k o res n hkn,
            lockOwner_cons_ne t k o res n hkn, ih]

theorem releaseList_preserves_not_self (self res : String) :
    ∀ ns : List Nat, ∀ st : LockState, ∀ n : Nat,
      lockOwner st res n ≠ some self →
      lockOwner (releaseList self res ns st) res n ≠ some self := by
  intro ns
  induction ns with
  | nil => intro st n h; exact h
  | cons m t ih =>
      intro st n h
      apply ih
      by_cases hmn : m = n
      · subst hmn
        exact lockOwner_releaseNode_self st self res m
      · rw [lockOwner_releaseNode_other st self res m n hmn]
        exact h

theorem releaseList_not_self (self res : String) :
    ∀ ns : List Nat, ∀ st : LockState, ∀ n : Nat, n ∈ ns →
      lockOwner (releaseList self res ns st) res n ≠ some self := by
  intro ns
  induction ns with
  | nil => intro st n h; exact absurd h (List.not_mem_nil n)
  | cons m t ih =>
      intro st n h
      rcases List.mem_cons.mp h with rfl | hmem
      · exact releaseList_preserves_not_self self res t _ n
          (lockOwner_releaseNode_self st self res n)
      · exact ih _ n hmem

theorem releaseList_other (self res : String) :
    ∀ ns : List Nat, ∀ st : LockState, ∀ n : Nat, n ∉ ns →
      lockOwner (releaseList self res ns st) res n = lockOwner st res n := by
  intro ns
  induction ns with
  | nil => intro st n _; rfl
  | cons m t ih =>
      intro st n h
      have hmn : m ≠ n := fun hc => h (hc ▸ List.mem_cons_self m t)
      rw [releaseList]
      rw [ih _ n (fun hc => h (List.mem_cons_of_mem m hc))]
      exact lockOwner_releaseNode_other st self res m n hmn

theorem mem_insertAsc (m : Nat) : ∀ l : List Nat, ∀ n : Nat,
    n ∈ insertAsc m l ↔ n = m ∨ n ∈ l := by
  intro l
  induction l with
  | nil => intro n; simp [insertAsc]
  | cons x t ih =>
      intro n
      unfold insertAsc
      by_cases h : m ≤ x
      · rw [if_pos h]
        simp [List.mem_cons]
      · rw [if_neg h]
        simp only [List.mem_cons, ih]
        tauto

theorem nodup_insertAsc (m : Nat) : ∀ l : List Nat, l.Nodup → m ∉ l →
    (insertAsc m l).Nodup := by
  intro l
  induction l with
  | nil => intro _ _; simp [insertAsc]
  | cons x t ih =>
      intro hnd hnm
      unfold insertAsc
      by_cases h : m ≤ x
      · rw [if_pos h]
        exact List.nodup_cons.mpr ⟨hnm, hnd⟩
      · rw [if_neg h]
        refine List.nodup_cons.mpr ⟨?_, ih (List.nodup_cons.mp hnd).2
          (fun hc => hnm (List.mem_cons_of_mem x hc))⟩
        intro hc
        rcases (mem_insertAsc m t x).mp hc with rfl | hc2
        · exact hnm (List.mem_cons_self x t)
        · exact (List.nodup_cons.mp hnd).1 hc2

theorem mem_sortNodes : ∀ l : List Nat, ∀ n : Nat, n ∈ sortNodes l ↔ n ∈ l := by
  intro l
  induction l with
  | nil => intro n; simp [sortNodes]
  | cons x t ih =>
      intro n
      show n ∈ insertAsc x (sortNodes t) ↔ _
      rw [mem_insertAsc, ih n, List.mem_cons]

theorem nodup_sortNodes : ∀ l : List Nat, l.Nodup → (sortNodes l).Nodup := by
  intro l
  induction l with
  | nil => intro _; simp [sortNodes]
  | cons x t ih =>
      intro hnd
      show (insertAsc x (sortNodes t)).Nodup
      refine nodup_insertAsc x (sortNodes t) (ih (List.nodup_cons.mp hnd).2) ?_
      intro hc
      exact (List.nodup_cons.mp hnd).1 ((mem_sortNodes t x).mp hc)

theorem acquireAllGo_spec (avail : Nat → Bool) (self res : String) :
    ∀ rem : List Nat, ∀ acq : List Nat, ∀ st : LockState, rem.Nodup →
    (∀ n ∈ rem, lockOwner st res n ≠ some self) →
    (∀ n ∈ acq, lockOwner st res n = some self) →
    (((acquireAllGo avail self res rem acq st).1 = true →
      ∀ n, (n ∈ rem ∨ n ∈ acq) →
        lockOwner (acquireAllGo avail self res rem acq st).2 res n = some self) ∧
     ((acquireAllGo avail self res rem acq st).1 = false →
      ∀ n, (n ∈ rem ∨ n ∈ acq) →
        lockOwner (acquireAllGo avail self res rem acq st).2 res n ≠ some self)) := by
  intro rem
  induction rem with
  | nil =>
      intro acq st hnd hrem hacq
      constructor
      · intro _ n hn
        rcases hn with hn | hn
        · exact absurd hn (List.not_mem_nil n)
        · exact hacq n hn
      · intro hfalse
        exact Bool.noConfusion hfalse
  | cons m rest ih =>
      intro acq st hnd hrem hacq
      by_cases hcond : (avail m && (lockOwner st res m).isNone) = true
      · have hgo : acquireAllGo avail self res (m :: rest) acq st
            = acquireAllGo avail self res rest (m :: acq) (((res, m), self) :: st) := by
          simp [acquireAllGo, hcond]
        have hmnotacq : m ∉ acq := by
          intro hmem
          have h1 := hacq m hmem
          rw [Bool.and_eq_true] at hcond
          rw [h1] at hcond
          exact Bool.noConfusion hcond.2
        have hrem2 : ∀ n ∈ rest, lockOwner (((res, m), self) :: st) res n ≠ some self := by
          intro n hn
          have hne : m ≠ n := by
            intro hc
            subst hc
            exact (List.nodup_cons.mp hnd).1 hn
          rw [lockOwner_cons_ne st (res, m) self res n (fun hc => hne (congrArg Prod.snd hc))]
          exact hrem n (List.mem_cons_of_mem m hn)
        have hacq2 : ∀ n ∈ m :: acq, lockOwner (((res, m), self) :: st) res n = some self := by
          intro n hn
          rcases List.mem_cons.mp hn with rfl | hn2
          · exact lockOwner_cons_self st self res n
          · by_cases hne : m = n
            · subst hne
              exact absurd hn2 hmnotacq
            · rw [lockOwner_cons_ne st (res, m) self res n (fun hc => hne (congrArg Prod.snd hc))]
              exact hacq n hn2
        have hspec := ih (m :: acq) (((res, m), self) :: st)
          (List.nodup_cons.mp hnd).2 hrem2 hacq2
        rw [hgo]
        constructor
        · intro htrue n hn
          apply hspec.1 htrue n
          rcases hn with hn | hn
          · rcases List.mem_cons.mp hn with rfl | hn2
            · exact Or.inr (List.mem_cons_self n acq)
            · exact Or.inl hn2
          · exact Or.inr (List.mem_cons_of_mem m hn)
        · intro hfalse n hn
          apply hspec.2 hfalse n
          rcases hn with hn | hn
          · rcases List.mem_cons.mp hn with rfl | hn2
            · exact Or.inr (List.mem_cons_self n acq)
            · exact Or.inl hn2
          · exact Or.inr (List.mem_cons_of_mem m hn)
      · have hcondf : (avail m && (lockOwner st res m).isNone) = false := by
          rw [← Bool.not_eq_true]
          exact hcond
        have hgo : acquireAllGo avail self res (m :: rest) acq st
            = (false, releaseList self res acq st) := by
          simp [acquireAllGo, hcondf]
        rw [hgo]
        constructor
        · intro htrue
          exact Bool.noConfusion htrue
        · intro _ n hn
          by_cases hmem : n ∈ acq
          · exact releaseList_not_self self res acq st n hmem
          · rw [releaseList_other self res acq st n hmem]
            rcases hn with hn | hn
            · exact hrem n hn
            · exact absurd hn hmem

/-- C2: modelled from the spec, because the class DistributedLockManager
(python/utils/lock_manager.py) that implements acquire_multi_node_lock
is imported by the sources but missing from the repository snapshot.
For every resource, node set and timeout outcome function, a multi-node
acquisition that starts holding none of the requested nodes leaves
every requested node locked by the caller when it returns true, and
leaves none of them locked by the caller when it returns false: every
lock taken during the failed call is released before the call returns. -/
theorem acquireAll_all_or_nothing (avail : Nat → Bool) (self res : String)
    (nodes : List Nat) (st : LockState) (hnd : nodes.Nodup)
    (hfree : ∀ n ∈ nodes, lockOwner st res n ≠ some self) :
    ((acquireAll avail self res nodes st).1 = true →
      ∀ n ∈ nodes, lockOwner (acquireAll avail self res nodes st).2 res n = some self) ∧
    ((acquireAll avail self res nodes st).1 = false →
      ∀ n ∈ nodes, lockOwner (acquireAll avail self res nodes st).2 res n ≠ some self) := by
  have hspec := acquireAllGo_spec avail self res (sortNodes nodes) [] st
    (nodup_sortNodes nodes hnd)
    (fun n hn => hfree n ((mem_sortNodes nodes n).mp hn))
    (fun n hn => absurd hn (List.not_mem_nil n))
  unfold acquireAll
  constructor
  · intro ht n hn
    exact hspec.1 ht n (Or.inl ((mem_sortNodes nodes n).mpr hn))
  · intro hf n hn
    exact hspec.2 hf n (Or.inl ((mem_sortNodes nodes n).mpr hn))

theorem acquireAll_all_or_nothing_witness :
    lockOwner (acquireAll (fun _ => true) "case3_test" "trans_60" [1, 2] []).2
      "trans_60" 1 = some "case3_test" :=
  (acquireAll_all_or_nothing (fun _ => true) "case3_test" "trans_60" [1, 2] []
    (by decide)
    (fun n _ hc => Option.noConfusion hc)).1 rfl 1 (by decide)
